import Mathlib

/-!
Verification of the NDVI computation and thresholded rendering of
src/vegdetect.py.

Band values read from the raster are exact integers; astype(float)
represents them exactly, so finite floating-point values are modelled by
exact rationals.  The one floating-point behaviour the program relies on,
IEEE division by zero producing an infinity or NaN instead of raising,
is modelled by the FP type below.  Two-dimensional numpy arrays are
modelled as lists of rows, and elementwise numpy binary operations with
their 2-D broadcasting rule (an axis is compatible when the two sizes are
equal or one of them is 1) by npBinop.
-/

namespace Vegdetect

/-- Result of a floating-point computation: a finite value (exact
rational), positive or negative infinity, or NaN. -/
inductive FP where
  | fin (q : ℚ)
  | inf
  | ninf
  | nan
deriving DecidableEq

/-- True exactly on finite values. -/
def FP.isFinite : FP → Bool
  | .fin _ => true
  | _ => false

/-- Negation of a floating-point value. -/
def FP.neg : FP → FP
  | .fin q => .fin (-q)
  | .inf => .ninf
  | .ninf => .inf
  | .nan => .nan

/-- IEEE division of two finite values (numpy true division of float64):
x / 0 is +inf for x > 0, -inf for x < 0, NaN for x = 0; otherwise the
exact quotient. -/
def fdivRat (x y : ℚ) : FP :=
  if y = 0 then
    if 0 < x then .inf else if x < 0 then .ninf else .nan
  else .fin (x / y)

/-- A 2-D numpy array, as a list of rows. -/
abbrev Grid (α : Type) := List (List α)

/-- Number of rows (shape[0]). -/
def nrows {α : Type} (g : Grid α) : ℕ := g.length

/-- Number of columns (shape[1]): length of the first row, 0 for an
empty array. -/
def ncols {α : Type} (g : Grid α) : ℕ := (g.getD 0 []).length

/-- Entry at row i, column j, with a default for out-of-range access. -/
def gat {α : Type} (g : Grid α) (d : α) (i j : ℕ) : α :=
  (g.getD i []).getD j d

/-- Grid of shape R × C with entry f i j at row i, column j. -/
def mkGrid {α : Type} (R C : ℕ) (f : ℕ → ℕ → α) : Grid α :=
  (List.range R).map (fun i => (List.range C).map (f i))

/-- numpy broadcast compatibility of one axis: sizes equal, or one is 1. -/
def bcompatB (n m : ℕ) : Bool := n == m || n == 1 || m == 1

/-- Size of the broadcast result axis (assuming compatibility). -/
def bdim (n m : ℕ) : ℕ := if n = 1 then m else n

/-- Index into an operand axis of size n when producing broadcast index i. -/
def bidx (n i : ℕ) : ℕ := if n = 1 then 0 else i

/-- Elementwise numpy binary operation on two 2-D arrays with numpy
broadcasting; raises (returns an error) when the shapes cannot be
broadcast together. -/
def npBinop {α β γ : Type} (f : α → β → γ) (da : α) (db : β)
    (a : Grid α) (b : Grid β) : Except String (Grid γ) :=
  if bcompatB (nrows a) (nrows b) && bcompatB (ncols a) (ncols b) then
    .ok (mkGrid (bdim (nrows a) (nrows b)) (bdim (ncols a) (ncols b))
      (fun i j =>
        f (gat a da (bidx (nrows a) i) (bidx (ncols a) j))
          (gat b db (bidx (nrows b) i) (bidx (ncols b) j))))
  else .error "operands could not be broadcast together"

/-- Line 82 of src/vegdetect.py: ndvi = (nir - red) / (nir + red),
elementwise over the two band grids. -/
def compute_ndvi (red nir : Grid ℚ) : Except String (Grid FP) := do
  let diff ← npBinop (fun x y => x - y) (0 : ℚ) (0 : ℚ) nir red
  let s ← npBinop (fun x y => x + y) (0 : ℚ) (0 : ℚ) nir red
  npBinop fdivRat 0 0 diff s

/-- A raster source: read b is the 2-D integer grid of band b
(1-indexed, as in rasterio). -/
structure Raster where
  read : ℕ → Grid ℤ

/-- astype(float) on an integer band: every sample widened to a (finite,
exact) floating-point value. -/
def astypeFloat (g : Grid ℤ) : Grid ℚ :=
  g.map (fun row => row.map (fun z : ℤ => (z : ℚ)))

/-- Lines 79-83 of src/vegdetect.py: red = src.read(3).astype(float),
nir = src.read(4).astype(float), ndvi = (nir - red) / (nir + red). -/
def compute_ndvi_file (src : Raster) : Except String (Grid FP) := do
  let red := astypeFloat (src.read 3)
  let nir := astypeFloat (src.read 4)
  let diff ← npBinop (fun x y => x - y) (0 : ℚ) (0 : ℚ) nir red
  let s ← npBinop (fun x y => x + y) (0 : ℚ) (0 : ℚ) nir red
  npBinop fdivRat 0 0 diff s

/-- Everything lines 117-126 of src/vegdetect.py hand to the plotting
library: figure size, colormap and its bad-pixel color, the image data
with its value range, colorbar label, axis visibility, title, the
horizontal reference line, and the output path. -/
structure ThresholdRender where
  figWidth : ℚ
  figHeight : ℚ
  cmapName : String
  badColor : String
  imageData : Grid FP
  vmin : ℚ
  vmax : ℚ
  colorbarLabel : String
  axisShown : Bool
  title : String
  axhlineY : ℚ
  axhlineColor : String
  axhlineStyle : String
  savePath : String
deriving DecidableEq

/-- Lines 105-126 of src/vegdetect.py: the rendering performed by
apply_ndvi_threshold(ndvi, threshold, save_path). -/
def apply_ndvi_threshold (ndvi : Grid FP) (threshold : ℚ)
    (save_path : String) : ThresholdRender :=
  { figWidth := 8
    figHeight := 8
    cmapName := "bwr"
    badColor := "gray"
    imageData := ndvi
    vmin := -1
    vmax := 1
    colorbarLabel := "NDVI"
    axisShown := false
    title := "NDVI Threshold"
    axhlineY := 1/2
    axhlineColor := "black"
    axhlineStyle := "--"
    savePath := save_path }

/-! Structural lemmas about grids and npBinop. -/

theorem nrows_mkGrid {α : Type} (R C : ℕ) (f : ℕ → ℕ → α) :
    nrows (mkGrid R C f) = R := by
  simp [nrows, mkGrid]

theorem ncols_mkGrid {α : Type} (R C : ℕ) (f : ℕ → ℕ → α) (hR : 0 < R) :
    ncols (mkGrid R C f) = C := by
  simp [ncols, mkGrid, List.getD_eq_getElem?_getD, List.getElem?_map,
    List.getElem?_range hR]

theorem gat_mkGrid {α : Type} (R C : ℕ) (f : ℕ → ℕ → α) (d : α)
    (i j : ℕ) (hi : i < R) (hj : j < C) :
    gat (mkGrid R C f) d i j = f i j := by
  simp [gat, mkGrid, List.getD_eq_getElem?_getD, List.getElem?_map,
    List.getElem?_range hi, List.getElem?_range hj]

theorem bidx_of_lt {n i : ℕ} (hi : i < n) : bidx n i = i := by
  unfold bidx
  split
  · omega
  · rfl

theorem bcompatB_self (n : ℕ) : bcompatB n n = true := by
  simp [bcompatB]

theorem bdim_self (n : ℕ) : bdim n n = n := by
  unfold bdim
  split <;> rfl

/-- On two arrays of identical shape, an elementwise numpy operation
succeeds and produces the pointwise combination (broadcasting is the
identity). -/
theorem npBinop_eq_shape {α β γ : Type} (f : α → β → γ) (da : α) (db : β)
    (a : Grid α) (b : Grid β)
    (hr : nrows a = nrows b) (hc : ncols a = ncols b) :
    npBinop f da db a b = .ok (mkGrid (nrows a) (ncols a)
      (fun i j => f (gat a da (bidx (nrows a) i) (bidx (ncols a) j))
        (gat b db (bidx (nrows a) i) (bidx (ncols a) j)))) := by
  unfold npBinop
  rw [← hr, ← hc, bcompatB_self, bcompatB_self, bdim_self, bdim_self]
  rfl

theorem ncols_mkGrid_ite {α : Type} (R C : ℕ) (f : ℕ → ℕ → α) :
    ncols (mkGrid R C f) = if R = 0 then 0 else C := by
  rcases Nat.eq_zero_or_pos R with h | h
  · subst h
    simp [ncols, mkGrid]
  · rw [ncols_mkGrid R C f h, if_neg (by omega)]

theorem mem_mkGrid_length {α : Type} (R C : ℕ) (f : ℕ → ℕ → α)
    (row : List α) (hrow : row ∈ mkGrid R C f) : row.length = C := by
  simp only [mkGrid, List.mem_map] at hrow
  obtain ⟨i, -, rfl⟩ := hrow
  simp

/-- On two band grids of identical shape, compute_ndvi succeeds and its
result is the grid of pointwise values fdivRat (nir - red) (nir + red). -/
theorem compute_ndvi_closed (red nir : Grid ℚ)
    (hr : nrows red = nrows nir) (hc : ncols red = ncols nir) :
    compute_ndvi red nir = .ok (mkGrid (nrows nir)
      (if nrows nir = 0 then 0 else ncols nir)
      (fun i j =>
        fdivRat
          (gat (mkGrid (nrows nir) (ncols nir) (fun a b =>
              gat nir 0 (bidx (nrows nir) a) (bidx (ncols nir) b) -
              gat red 0 (bidx (nrows nir) a) (bidx (ncols nir) b))) 0
            (bidx (nrows nir) i)
            (bidx (if nrows nir = 0 then 0 else ncols nir) j))
          (gat (mkGrid (nrows nir) (ncols nir) (fun a b =>
              gat nir 0 (bidx (nrows nir) a) (bidx (ncols nir) b) +
              gat red 0 (bidx (nrows nir) a) (bidx (ncols nir) b))) 0
            (bidx (nrows nir) i)
            (bidx (if nrows nir = 0 then 0 else ncols nir) j)))) := by
  have h1 := npBinop_eq_shape (fun x y => x - y) (0 : ℚ) (0 : ℚ) nir red
    hr.symm hc.symm
  have h2 := npBinop_eq_shape (fun x y => x + y) (0 : ℚ) (0 : ℚ) nir red
    hr.symm hc.symm
  have h3 := npBinop_eq_shape fdivRat (0 : ℚ) (0 : ℚ)
    (mkGrid (nrows nir) (ncols nir) (fun a b =>
      gat nir 0 (bidx (nrows nir) a) (bidx (ncols nir) b) -
      gat red 0 (bidx (nrows nir) a) (bidx (ncols nir) b)))
    (mkGrid (nrows nir) (ncols nir) (fun a b =>
      gat nir 0 (bidx (nrows nir) a) (bidx (ncols nir) b) +
      gat red 0 (bidx (nrows nir) a) (bidx (ncols nir) b)))
    (by rw [nrows_mkGrid, nrows_mkGrid])
    (by rw [ncols_mkGrid_ite, ncols_mkGrid_ite])
  unfold compute_ndvi
  rw [h1, h2]
  show npBinop fdivRat 0 0 _ _ = _
  rw [h3, nrows_mkGrid, ncols_mkGrid_ite]

/-- Per-pixel value of compute_ndvi at an in-range pixel of equal-shape
bands: exactly fdivRat (nir - red) (nir + red) at that pixel. -/
theorem compute_ndvi_pixel (red nir : Grid ℚ)
    (hr : nrows red = nrows nir) (hc : ncols red = ncols nir)
    (i j : ℕ) (hi : i < nrows red) (hj : j < ncols red)
    (out : Grid FP) (d : FP)
    (hout : compute_ndvi red nir = .ok out) :
    gat out d i j =
      fdivRat (gat nir 0 i j - gat red 0 i j)
        (gat nir 0 i j + gat red 0 i j) := by
  rw [compute_ndvi_closed red nir hr hc] at hout
  have hiR : i < nrows nir := hr ▸ hi
  have hjC : j < ncols nir := hc ▸ hj
  have hR0 : ¬ nrows nir = 0 := by omega
  injection hout with hout
  subst hout
  rw [if_neg hR0, gat_mkGrid _ _ _ _ _ _ hiR hjC,
    bidx_of_lt hiR, bidx_of_lt hjC,
    gat_mkGrid _ _ _ _ _ _ hiR hjC,
    gat_mkGrid _ _ _ _ _ _ hiR hjC,
    bidx_of_lt hiR, bidx_of_lt hjC]

/-- On bands of identical shape, compute_ndvi succeeds and the output
grid has exactly the shape of the bands and is rectangular. -/
theorem compute_ndvi_shape (red nir : Grid ℚ)
    (hr : nrows red = nrows nir) (hc : ncols red = ncols nir) :
    ∃ out, compute_ndvi red nir = .ok out ∧
      nrows out = nrows red ∧ ncols out = ncols red ∧
      ∀ row ∈ out, row.length = ncols out := by
  refine ⟨_, compute_ndvi_closed red nir hr hc, ?_, ?_, ?_⟩
  · rw [nrows_mkGrid, hr]
  · rw [ncols_mkGrid_ite]
    rcases Nat.eq_zero_or_pos (nrows nir) with h | h
    · rw [if_pos h]
      have hred : red = [] := by
        have h0 : nrows red = 0 := by omega
        exact List.length_eq_zero.mp h0
      subst hred
      simp [ncols]
    · rw [if_neg (by omega), if_neg (by omega)]
      exact hc.symm
  · intro row hrow
    rw [ncols_mkGrid_ite]
    rcases Nat.eq_zero_or_pos (nrows nir) with h | h
    · rw [h] at hrow
      simp [mkGrid] at hrow
    · rw [if_neg (by omega)]
      exact mem_mkGrid_length _ _ _ row hrow

theorem nrows_astypeFloat (g : Grid ℤ) : nrows (astypeFloat g) = nrows g := by
  simp [nrows, astypeFloat]

theorem ncols_astypeFloat (g : Grid ℤ) : ncols (astypeFloat g) = ncols g := by
  cases g with
  | nil => rfl
  | cons r t =>
    show (List.map (fun z : ℤ => (z : ℚ)) r).length = r.length
    exact List.length_map r _

theorem rowCast_getD (r : List ℤ) (j : ℕ) :
    (r.map (fun z : ℤ => (z : ℚ))).getD j 0 = ((r.getD j 0 : ℤ) : ℚ) := by
  induction r generalizing j with
  | nil => simp
  | cons a t ih =>
    cases j with
    | zero => simp
    | succ j => simpa using ih j

theorem gat_astypeFloat (g : Grid ℤ) (i j : ℕ) :
    gat (astypeFloat g) 0 i j = ((gat g 0 i j : ℤ) : ℚ) := by
  induction g generalizing i with
  | nil => simp [gat, astypeFloat]
  | cons r t ih =>
    cases i with
    | zero => simpa [gat, astypeFloat] using rowCast_getD r j
    | succ i => simpa [gat, astypeFloat] using ih i

instance instDecEqExcept {ε α : Type} [DecidableEq ε] [DecidableEq α] :
    DecidableEq (Except ε α) := fun a b =>
  match a, b with
  | .ok x, .ok y =>
    if h : x = y then isTrue (by rw [h])
    else isFalse (by intro hc; cases hc; exact h rfl)
  | .error x, .error y =>
    if h : x = y then isTrue (by rw [h])
    else isFalse (by intro hc; cases hc; exact h rfl)
  | .ok _, .error _ => isFalse (by intro hc; cases hc)
  | .error _, .ok _ => isFalse (by intro hc; cases hc)

/-- When a shape axis pair is not broadcast-compatible, compute_ndvi
raises the numpy broadcast error. -/
theorem compute_ndvi_error (red nir : Grid ℚ)
    (hinc : ¬(bcompatB (nrows nir) (nrows red) = true ∧
      bcompatB (ncols nir) (ncols red) = true)) :
    compute_ndvi red nir = .error "operands could not be broadcast together" := by
  unfold compute_ndvi npBinop
  rw [if_neg (by simpa [Bool.and_eq_true] using hinc)]
  rfl

/-! Value-level facts about the per-pixel NDVI formula. -/

theorem fdivRat_bounds {r n : ℚ} (hr : 0 ≤ r) (hn : 0 ≤ n)
    (hnz : r + n ≠ 0) :
    ∃ q, fdivRat (n - r) (n + r) = .fin q ∧ -1 ≤ q ∧ q ≤ 1 := by
  have hne : n + r ≠ 0 := by rwa [add_comm] at hnz
  have hpos : 0 < n + r := lt_of_le_of_ne (add_nonneg hn hr) (Ne.symm hne)
  refine ⟨(n - r) / (n + r), ?_, ?_, ?_⟩
  · unfold fdivRat
    rw [if_neg hne]
  · rw [le_div_iff₀ hpos]
    linarith
  · rw [div_le_one hpos]
    linarith

theorem fdivRat_nonfinite {x y : ℚ} (h : y = 0) :
    (fdivRat x y).isFinite = false := by
  unfold fdivRat
  rw [if_pos h]
  split_ifs <;> rfl

theorem fdivRat_swap_neg {r n : ℚ} (h : n + r ≠ 0) :
    fdivRat (r - n) (r + n) = FP.neg (fdivRat (n - r) (n + r)) := by
  have h2 : r + n ≠ 0 := by rwa [add_comm] at h
  unfold fdivRat
  rw [if_neg h2, if_neg h]
  show FP.fin _ = FP.neg (FP.fin _)
  simp only [FP.neg, FP.fin.injEq]
  rw [add_comm r n, ← neg_div]
  ring_nf

/-! Claims. -/

/-- C1 counterexample: with a negative sample the bound fails although no
pixel has red + nir == 0: red = [[2]], nir = [[-1]] gives red + nir = 1
at the only pixel, yet the computed NDVI value is -3, outside [-1, 1]. -/
theorem ndvi_range_cex :
    compute_ndvi [[(2 : ℚ)]] [[(-1 : ℚ)]] = .ok [[.fin (-3)]] ∧
      (2 : ℚ) + (-1) ≠ 0 ∧ ¬((-1 : ℚ) ≤ -3 ∧ (-3 : ℚ) ≤ 1) := by
  refine ⟨?_, by norm_num, by norm_num⟩
  norm_num [compute_ndvi, npBinop, mkGrid, gat, nrows, ncols, bcompatB,
    bdim, bidx, fdivRat, List.range_succ, Bind.bind, Except.bind]

/-- C1 (amended): for red and NIR grids of identical dimensions whose
samples are all nonnegative and in which no pixel has red + nir == 0,
every value of the NDVI array produced by compute_ndvi lies in [-1, 1]. -/
theorem ndvi_range_nonneg (red nir : Grid ℚ)
    (hr : nrows red = nrows nir) (hc : ncols red = ncols nir)
    (hnn : ∀ i j, i < nrows red → j < ncols red →
      0 ≤ gat red 0 i j ∧ 0 ≤ gat nir 0 i j)
    (hnz : ∀ i j, i < nrows red → j < ncols red →
      gat red 0 i j + gat nir 0 i j ≠ 0)
    (i j : ℕ) (hi : i < nrows red) (hj : j < ncols red)
    (out : Grid FP) (hout : compute_ndvi red nir = .ok out) :
    ∃ q, gat out FP.nan i j = .fin q ∧ -1 ≤ q ∧ q ≤ 1 := by
  rw [compute_ndvi_pixel red nir hr hc i j hi hj out FP.nan hout]
  exact fdivRat_bounds (hnn i j hi hj).1 (hnn i j hi hj).2 (hnz i j hi hj)

/-- C1 witness: the amended theorem applied to red = [[1]], nir = [[2]]. -/
theorem ndvi_range_nonneg_witness :
    compute_ndvi [[(1 : ℚ)]] [[(2 : ℚ)]] = .ok [[.fin (1/3)]] ∧
      ∃ q, gat [[FP.fin (1/3)]] FP.nan 0 0 = .fin q ∧ -1 ≤ q ∧ q ≤ 1 := by
  have h : compute_ndvi [[(1 : ℚ)]] [[(2 : ℚ)]] = .ok [[.fin (1/3)]] := by
    norm_num [compute_ndvi, npBinop, mkGrid, gat, nrows, ncols, bcompatB,
      bdim, bidx, fdivRat, List.range_succ, Bind.bind, Except.bind]
  refine ⟨h, ndvi_range_nonneg [[(1 : ℚ)]] [[(2 : ℚ)]] rfl rfl ?_ ?_ 0 0
    (by decide) (by decide) [[.fin (1/3)]] h⟩
  · intro i j hi hj
    have hi0 : i = 0 := by simpa [nrows] using hi
    have hj0 : j = 0 := by simpa [ncols] using hj
    subst hi0
    subst hj0
    constructor <;> norm_num [gat]
  · intro i j hi hj
    have hi0 : i = 0 := by simpa [nrows] using hi
    have hj0 : j = 0 := by simpa [ncols] using hj
    subst hi0
    subst hj0
    norm_num [gat]

/-- C2 (confirmed): on the 2x2 bands red = [[100,50],[0,100]] and
nir = [[200,50],[100,100]], compute_ndvi returns exactly
[[1/3, 0], [1, 0]]. -/
theorem ndvi_end_to_end_2x2 :
    compute_ndvi [[(100 : ℚ), 50], [0, 100]] [[200, 50], [100, 100]] =
      .ok [[.fin (1/3), .fin 0], [.fin 1, .fin 0]] := by
  norm_num [compute_ndvi, npBinop, mkGrid, gat, nrows, ncols, bcompatB,
    bdim, bidx, fdivRat, List.range_succ, Bind.bind, Except.bind]

/-- C3 (confirmed): for same-shaped bands, at every pixel where
red + nir == 0 the computation does not raise: it returns an array, and
the value stored at that pixel is non-finite (an infinity or NaN),
propagated unguarded. -/
theorem ndvi_zero_sum_nonfinite (red nir : Grid ℚ)
    (hr : nrows red = nrows nir) (hc : ncols red = ncols nir)
    (i j : ℕ) (hi : i < nrows red) (hj : j < ncols red)
    (hsum : gat red 0 i j + gat nir 0 i j = 0) :
    ∃ out, compute_ndvi red nir = .ok out ∧
      (gat out FP.nan i j).isFinite = false := by
  refine ⟨_, compute_ndvi_closed red nir hr hc, ?_⟩
  rw [compute_ndvi_pixel red nir hr hc i j hi hj _ FP.nan
    (compute_ndvi_closed red nir hr hc)]
  exact fdivRat_nonfinite (by linarith)

/-- C3 witness: red = [[0]], nir = [[0]] has red + nir == 0 at its only
pixel; the returned array holds a non-finite value there. -/
theorem ndvi_zero_sum_nonfinite_witness :
    ∃ out, compute_ndvi [[(0 : ℚ)]] [[(0 : ℚ)]] = .ok out ∧
      (gat out FP.nan 0 0).isFinite = false :=
  ndvi_zero_sum_nonfinite [[(0 : ℚ)]] [[(0 : ℚ)]] rfl rfl 0 0
    (by decide) (by decide) (by norm_num [gat])

/-- C4 (confirmed): apply_ndvi_threshold performs no per-pixel
comparison against the threshold: its entire output is unchanged when
only the threshold varies (so at most the title could ever differ, and
in fact nothing does), and the horizontal reference line sits at the
constant position 0.5 whatever the threshold. -/
theorem threshold_render_inert (ndvi : Grid FP) (t t2 : ℚ) (p : String) :
    apply_ndvi_threshold ndvi t p = apply_ndvi_threshold ndvi t2 p ∧
      (apply_ndvi_threshold ndvi t p).axhlineY = 1/2 :=
  ⟨rfl, rfl⟩

/-- C5 (confirmed): at any pixel of same-shaped bands, if red == nir
with both positive the NDVI value is exactly 0; if red == 0 and nir > 0
it is exactly 1; if nir == 0 and red > 0 it is exactly -1. -/
theorem ndvi_special_values (red nir : Grid ℚ)
    (hr : nrows red = nrows nir) (hc : ncols red = ncols nir)
    (i j : ℕ) (hi : i < nrows red) (hj : j < ncols red)
    (out : Grid FP) (hout : compute_ndvi red nir = .ok out) :
    (gat red 0 i j = gat nir 0 i j ∧ 0 < gat red 0 i j →
      gat out FP.nan i j = .fin 0) ∧
    (gat red 0 i j = 0 ∧ 0 < gat nir 0 i j →
      gat out FP.nan i j = .fin 1) ∧
    (gat nir 0 i j = 0 ∧ 0 < gat red 0 i j →
      gat out FP.nan i j = .fin (-1)) := by
  rw [compute_ndvi_pixel red nir hr hc i j hi hj out FP.nan hout]
  set r := gat red 0 i j with hrdef
  set n := gat nir 0 i j with hndef
  refine ⟨?_, ?_, ?_⟩
  · rintro ⟨h1, h2⟩
    rw [← h1]
    unfold fdivRat
    rw [if_neg (by linarith), sub_self, zero_div]
  · rintro ⟨h1, h2⟩
    rw [h1]
    unfold fdivRat
    rw [if_neg (by linarith)]
    rw [sub_zero, add_zero, div_self (by linarith)]
  · rintro ⟨h1, h2⟩
    rw [h1]
    unfold fdivRat
    rw [if_neg (by linarith)]
    rw [zero_sub, zero_add, neg_div, div_self (by linarith)]

/-- C5 witness: the theorem applied at the only pixel of red = [[5]],
nir = [[5]], where the computed NDVI is exactly 0. -/
theorem ndvi_special_values_witness :
    compute_ndvi [[(5 : ℚ)]] [[(5 : ℚ)]] = .ok [[.fin 0]] ∧
      gat [[FP.fin 0]] FP.nan 0 0 = .fin 0 := by
  have h : compute_ndvi [[(5 : ℚ)]] [[(5 : ℚ)]] = .ok [[.fin 0]] := by
    norm_num [compute_ndvi, npBinop, mkGrid, gat, nrows, ncols, bcompatB,
      bdim, bidx, fdivRat, List.range_succ, Bind.bind, Except.bind]
  exact ⟨h, (ndvi_special_values [[(5 : ℚ)]] [[(5 : ℚ)]] rfl rfl 0 0
    (by decide) (by decide) [[.fin 0]] h).1 ⟨rfl, by norm_num [gat]⟩⟩

/-- C6 counterexample: red = [[1,2],[3,4]] (2 x 2) and nir = [[1,2]]
(1 x 2) have different dimensions, yet compute_ndvi does not fail: numpy
silently broadcasts the one-row operand over both rows and returns a
2 x 2 result. -/
theorem ndvi_mismatch_broadcast_cex :
    compute_ndvi [[(1 : ℚ), 2], [3, 4]] [[1, 2]] =
      .ok [[.fin 0, .fin 0], [.fin (-1/2), .fin (-1/3)]] ∧
      nrows [[(1 : ℚ), 2], [3, 4]] ≠ nrows [[(1 : ℚ), 2]] := by
  refine ⟨?_, by decide⟩
  norm_num [compute_ndvi, npBinop, mkGrid, gat, nrows, ncols, bcompatB,
    bdim, bidx, fdivRat, List.range_succ, Bind.bind, Except.bind]

/-- C6 (amended): for red and NIR grids whose dimensions differ, the
computation fails with the numpy broadcast shape error whenever the
shapes are not broadcast-compatible (some axis pair has unequal sizes,
neither of them 1); broadcast-compatible mismatches are instead silently
broadcast. -/
theorem ndvi_mismatch_error (red nir : Grid ℚ)
    (hdiff : nrows red ≠ nrows nir ∨ ncols red ≠ ncols nir)
    (hinc : ¬(bcompatB (nrows nir) (nrows red) = true ∧
      bcompatB (ncols nir) (ncols red) = true)) :
    compute_ndvi red nir = .error "operands could not be broadcast together" :=
  compute_ndvi_error red nir hinc

/-- C6 witness: a 2-row red band against a 3-row NIR band is not
broadcast-compatible, and compute_ndvi raises the broadcast error. -/
theorem ndvi_mismatch_error_witness :
    compute_ndvi [[(1 : ℚ), 2], [3, 4]] [[1, 2], [3, 4], [5, 6]] =
      .error "operands could not be broadcast together" :=
  ndvi_mismatch_error [[(1 : ℚ), 2], [3, 4]] [[1, 2], [3, 4], [5, 6]]
    (Or.inl (by decide)) (by decide)

/-- C7 (confirmed): on bands of identical dimensions, compute_ndvi
returns a floating-point grid (Grid FP) with exactly the same number of
rows and columns, and rectangular. -/
theorem ndvi_shape_inherited (red nir : Grid ℚ)
    (hr : nrows red = nrows nir) (hc : ncols red = ncols nir) :
    ∃ out : Grid FP, compute_ndvi red nir = .ok out ∧
      nrows out = nrows red ∧ ncols out = ncols red ∧
      ∀ row ∈ out, row.length = ncols out :=
  compute_ndvi_shape red nir hr hc

/-- C7 witness: the theorem applied to the 2x2 bands of the end-to-end
scenario. -/
theorem ndvi_shape_inherited_witness :
    ∃ out : Grid FP,
      compute_ndvi [[(100 : ℚ), 50], [0, 100]] [[200, 50], [100, 100]] =
        .ok out ∧
      nrows out = nrows [[(100 : ℚ), 50], [0, 100]] ∧
      ncols out = ncols [[(100 : ℚ), 50], [0, 100]] ∧
      ∀ row ∈ out, row.length = ncols out :=
  ndvi_shape_inherited [[(100 : ℚ), 50], [0, 100]] [[200, 50], [100, 100]]
    rfl rfl

/-- C8 (confirmed): compute_ndvi applied to a raster file reads band 3
as red and band 4 as NIR (1-indexed) and widens both integer bands to
floating point before subtracting and dividing: the whole pipeline
equals the two-grid computation on the float-converted bands 3 and 4,
and each in-range pixel holds the exact (unrounded, non-integer)
quotient of the integer band values. -/
theorem ndvi_band_selection_float (src : Raster)
    (hr : nrows (src.read 3) = nrows (src.read 4))
    (hc : ncols (src.read 3) = ncols (src.read 4))
    (i j : ℕ) (hi : i < nrows (src.read 3)) (hj : j < ncols (src.read 3))
    (out : Grid FP) (hout : compute_ndvi_file src = .ok out) :
    compute_ndvi_file src =
      compute_ndvi (astypeFloat (src.read 3)) (astypeFloat (src.read 4)) ∧
    gat out FP.nan i j =
      fdivRat (((gat (src.read 4) 0 i j : ℤ) : ℚ) -
          ((gat (src.read 3) 0 i j : ℤ) : ℚ))
        (((gat (src.read 4) 0 i j : ℤ) : ℚ) +
          ((gat (src.read 3) 0 i j : ℤ) : ℚ)) := by
  have heq : compute_ndvi_file src =
      compute_ndvi (astypeFloat (src.read 3)) (astypeFloat (src.read 4)) :=
    rfl
  refine ⟨heq, ?_⟩
  rw [heq] at hout
  rw [compute_ndvi_pixel (astypeFloat (src.read 3))
    (astypeFloat (src.read 4))
    (by rw [nrows_astypeFloat, nrows_astypeFloat, hr])
    (by rw [ncols_astypeFloat, ncols_astypeFloat, hc])
    i j (by rwa [nrows_astypeFloat]) (by rwa [ncols_astypeFloat])
    out FP.nan hout]
  rw [gat_astypeFloat, gat_astypeFloat]

/-- C8 witness: a raster whose band 3 is [[1]] and band 4 is [[3]];
the pipeline equals the grid computation and the pixel value is the
exact quotient 2/4 = 1/2. -/
theorem ndvi_band_selection_float_witness :
    compute_ndvi_file
        ⟨fun b => if b = 3 then [[1]] else if b = 4 then [[3]] else []⟩ =
      compute_ndvi
        (astypeFloat [[1]]) (astypeFloat [[3]]) ∧
    gat [[FP.fin (1/2)]] FP.nan 0 0 =
      fdivRat
        (((gat [[(3 : ℤ)]] 0 0 0 : ℤ) : ℚ) -
          ((gat [[(1 : ℤ)]] 0 0 0 : ℤ) : ℚ))
        (((gat [[(3 : ℤ)]] 0 0 0 : ℤ) : ℚ) +
          ((gat [[(1 : ℤ)]] 0 0 0 : ℤ) : ℚ)) :=
  ndvi_band_selection_float
    ⟨fun b => if b = 3 then [[1]] else if b = 4 then [[3]] else []⟩
    rfl rfl 0 0 (by decide) (by decide) [[FP.fin (1/2)]]
    (by norm_num [compute_ndvi_file, astypeFloat, npBinop, mkGrid, gat,
      nrows, ncols, bcompatB, bdim, bidx, fdivRat, List.range_succ,
      Bind.bind, Except.bind])

/-- C9 (confirmed): compute_ndvi is a pure function of its two band
grids: two calls on identical inputs return identical (bit-identical in
the exact model) outputs, and the inputs are never mutated (the
embedding is immutable; the numpy expression allocates fresh arrays). -/
theorem ndvi_deterministic (red nir red2 nir2 : Grid ℚ)
    (h1 : red = red2) (h2 : nir = nir2) :
    compute_ndvi red nir = compute_ndvi red2 nir2 := by
  rw [h1, h2]

/-- C9 witness: the theorem at a concrete pair of bands. -/
theorem ndvi_deterministic_witness :
    compute_ndvi [[(1 : ℚ)]] [[(2 : ℚ)]] = compute_ndvi [[(1 : ℚ)]] [[(2 : ℚ)]] :=
  ndvi_deterministic [[(1 : ℚ)]] [[(2 : ℚ)]] [[(1 : ℚ)]] [[(2 : ℚ)]] rfl rfl

/-- C10 (confirmed, implicit claim): swapping the red and NIR bands
negates the NDVI at every pixel where red + nir is nonzero. -/
theorem ndvi_antisym (red nir : Grid ℚ)
    (hr : nrows red = nrows nir) (hc : ncols red = ncols nir)
    (i j : ℕ) (hi : i < nrows red) (hj : j < ncols red)
    (hnz : gat red 0 i j + gat nir 0 i j ≠ 0)
    (out outSwap : Grid FP)
    (hout : compute_ndvi red nir = .ok out)
    (houtSwap : compute_ndvi nir red = .ok outSwap) :
    gat outSwap FP.nan i j = FP.neg (gat out FP.nan i j) := by
  rw [compute_ndvi_pixel red nir hr hc i j hi hj out FP.nan hout]
  rw [compute_ndvi_pixel nir red hr.symm hc.symm i j
    (by rwa [← hr]) (by rwa [← hc]) outSwap FP.nan houtSwap]
  exact fdivRat_swap_neg (fun hc => hnz (by linarith))

/-- C10 witness: for red = [[1]], nir = [[3]], the swapped computation
yields exactly the negation: ndvi(nir, red) = -1/2 = -(1/2). -/
theorem ndvi_antisym_witness :
    compute_ndvi [[(1 : ℚ)]] [[(3 : ℚ)]] = .ok [[.fin (1/2)]] ∧
      compute_ndvi [[(3 : ℚ)]] [[(1 : ℚ)]] = .ok [[.fin (-(1/2))]] ∧
      gat [[FP.fin (-(1/2))]] FP.nan 0 0 =
        FP.neg (gat [[FP.fin (1/2)]] FP.nan 0 0) := by
  have h1 : compute_ndvi [[(1 : ℚ)]] [[(3 : ℚ)]] = .ok [[.fin (1/2)]] := by
    norm_num [compute_ndvi, npBinop, mkGrid, gat, nrows, ncols, bcompatB,
      bdim, bidx, fdivRat, List.range_succ, Bind.bind, Except.bind]
  have h2 : compute_ndvi [[(3 : ℚ)]] [[(1 : ℚ)]] = .ok [[.fin (-(1/2))]] := by
    norm_num [compute_ndvi, npBinop, mkGrid, gat, nrows, ncols, bcompatB,
      bdim, bidx, fdivRat, List.range_succ, Bind.bind, Except.bind]
  exact ⟨h1, h2, ndvi_antisym [[(1 : ℚ)]] [[(3 : ℚ)]] rfl rfl 0 0
    (by decide) (by decide) (by norm_num [gat]) [[.fin (1/2)]]
    [[.fin (-(1/2))]] h1 h2⟩

end Vegdetect
